import Mathlib

/-!
Verification of the Sonora task-dispatch and hardware-arbitration layer.

The development shallowly embeds two kinds of code:

* code present in the repository (`src/components/SurgicalEditor.tsx`, the
  container entrypoint shell script), translated function by function; and
* the coordination core (Task Ledger, Handshake Coordinator, Hardware Lock,
  Fallback Dispatcher), which the repository describes only in its design
  documents (`SONORA_CONTEXT_MAP.md`, `walkthrough.md`); those definitions
  are modelled from the specification text and are marked as such.

All machine integers are modelled as `Nat`/`Int`/`Rat`; time is a discrete
`Nat` clock.
-/

namespace Sonora

/-! ## SurgicalEditor (src/components/SurgicalEditor.tsx) -/

/-- An audio artifact attached to a segment (src/types.ts, `Artifact`). -/
structure Artifact where
  id : String
  type : String
  timestamp : Rat
  duration : Rat
  confidence : Rat
  isSelected : Bool
deriving Repr, DecidableEq

/-- A dialogue segment (src/types.ts, `DialogueSegment`).  Optional TS fields
become `Option`; `number` becomes `Rat` (counts become `Nat`); the TS field
`end` is renamed `endTime` because `end` is a Lean keyword. -/
structure DialogueSegment where
  id : String
  speaker_id : String
  start : Rat
  endTime : Rat
  original : String
  translation : String
  morae_count : Nat
  syllable_count : Nat
  emotion : String
  prosody_instruction : String
  stretch_rate : Rat
  spectral_match : Bool
  artifacts : List Artifact
  nisqa_score : Option Rat
  surgery_complete : Option Bool
  emotional_priority : Option Bool
  intensity_data : Option (List Rat)
deriving Repr, DecidableEq

/-- Whether a character is one of the vowels of the JS class `[aeiouy]`. -/
def isVowelY (c : Char) : Bool :=
  c = 'a' || c = 'e' || c = 'i' || c = 'o' || c = 'u' || c = 'y'

/-- Whether a character is outside the JS class `[laeiouy]`. -/
def notLVowelY (c : Char) : Bool :=
  !(c = 'l' || isVowelY c)

/-- One pass of `word.replace(/(?:[^laeiouy]es|ed|[^laeiouy]e)$/, '')`
(SurgicalEditor.tsx line 17).  The regex is end-anchored, so the leftmost
match is the three-character alternative when it fits, then the
two-character ones (`ed` before `[^laeiouy]e`, in alternation order). -/
def stripSuffixEnd (w : List Char) : List Char :=
  let r := w.reverse
  match r with
  | 's' :: 'e' :: c :: rest =>
      if notLVowelY c then rest.reverse
      else
        match r with
        | 'd' :: 'e' :: rest2 => rest2.reverse
        | 'e' :: c2 :: rest2 => if notLVowelY c2 then rest2.reverse else w
        | _ => w
  | 'd' :: 'e' :: rest => rest.reverse
  | 'e' :: c :: rest => if notLVowelY c then rest.reverse else w
  | _ => w

/-- Number of matches of `/[aeiouy]{1,2}/g` scanning left to right: each
match greedily takes up to two consecutive vowels (SurgicalEditor.tsx
line 19). -/
def countVowelGroups : List Char → Nat
  | [] => 0
  | c :: rest =>
      if isVowelY c then
        match rest with
        | [] => 1
        | d :: rest2 =>
            if isVowelY d then 1 + countVowelGroups rest2
            else 1 + countVowelGroups (d :: rest2)
      else countVowelGroups rest

/-- `countSyllables` (SurgicalEditor.tsx lines 14-21): lowercase, keep only
`[a-z]`, short words count 1, strip one end suffix, drop a leading `y`,
then count vowel groups (at least 1). -/
def countSyllables (text : String) : Nat :=
  let word := (text.toList.map Char.toLower).filter fun c => 'a' ≤ c && c ≤ 'z'
  if word.length ≤ 3 then 1
  else
    let w1 := stripSuffixEnd word
    let w2 := match w1 with
      | 'y' :: rest => rest
      | other => other
    let s := countVowelGroups w2
    if s = 0 then 1 else s

/-- JS `str.split(/\s+/)`: the maximal non-whitespace runs, with an extra
empty token at an end of the string that begins/ends with whitespace, and
`[""]` for the empty string. -/
def splitWS (s : String) : List String :=
  let cs := s.toList
  match cs with
  | [] => [""]
  | c :: _ =>
      let toks := (cs.splitOnP Char.isWhitespace).filter (· ≠ [])
      let lead : List (List Char) := if c.isWhitespace then [[]] else []
      let trail : List (List Char) :=
        if (cs.getLast? ).any Char.isWhitespace then [[]] else []
      (lead ++ toks ++ trail).map fun l => String.mk l

/-- Result of `calculateMoraeProgress` (SurgicalEditor.tsx lines 23-30). -/
structure MoraeProgress where
  ratio : Rat
  current : Nat
  target : Nat
  isViolation : Bool
deriving Repr, DecidableEq

/-- `calculateMoraeProgress` (SurgicalEditor.tsx lines 23-30): the target is
`morae_count || 10` (so 10 when the count is 0/missing), the current count
sums `countSyllables` over the whitespace-split translation, and the commit
violation flag is `ratio > 1.3 || ratio < 0.8`. -/
def calculateMoraeProgress (seg : DialogueSegment) : MoraeProgress :=
  let target : Nat := if seg.morae_count = 0 then 10 else seg.morae_count
  let words := splitWS seg.translation
  let current : Nat := words.foldl (fun acc w => acc + countSyllables w) 0
  let stretchRate : Rat := (current : Rat) / (target : Rat)
  { ratio := stretchRate
    current := current
    target := target
    isViolation := decide (stretchRate > 13/10 ∨ stretchRate < 8/10) }

/-- The Commit Changes button (SurgicalEditor.tsx lines 43-49): disabled when
`morae.isViolation`; when it fires it passes `{...editedSeg,
surgery_complete: true}` to `onCommit`.  `none` models the disabled
button. -/
def commitChanges (editedSeg : DialogueSegment) : Option DialogueSegment :=
  if (calculateMoraeProgress editedSeg).isViolation then none
  else some { editedSeg with surgery_complete := some true }

/-! ## Container entrypoint (src/unnamed/part_001, `find_free_port`) -/

/-- `MAX_TRIES=10` in the entrypoint script. -/
def MAX_TRIES : Nat := 10

/-- The loop body of `find_free_port`: try ports `p, p+1, ...` while `k`
further candidates remain, returning the first one whose listener probe
(`busy`, modelling `ss -ltn "sport = :p"` reporting a TCP listener) is
negative. -/
def find_free_port_aux (busy : Nat → Bool) : Nat → Nat → Option Nat
  | p, 0 => if !busy p then some p else none
  | p, k + 1 => if !busy p then some p else find_free_port_aux busy (p + 1) k

/-- `find_free_port` (entrypoint lines 10-20): scans `port + i` for
`i in seq 0 MAX_TRIES` (eleven candidates) and returns the first free one,
failing if all are busy. -/
def find_free_port (busy : Nat → Bool) (port : Nat) : Option Nat :=
  find_free_port_aux busy port MAX_TRIES

/-- The entrypoint (lines 22-25): on failure of `find_free_port` it prints
`No free ports found near <port>` and exits nonzero, modelled as `.error`;
otherwise the selected port is exported. -/
def entrypointSelectPort (busy : Nat → Bool) (preferredPort : Nat) :
    Except String Nat :=
  match find_free_port busy preferredPort with
  | some p => .ok p
  | none => .error ("No free ports found near " ++ toString preferredPort)

/-! ## Task Ledger

The Task Ledger, Handshake Coordinator, Hardware Lock and Fallback
Dispatcher live in `sonora/core/orchestrator.py`, which the repository only
documents (`SONORA_CONTEXT_MAP.md` §"The Atomic Handshake",
`walkthrough.md` §"Sequential Flush Protocol"); every definition below is
modelled from the specification text. -/

/-- Modelled from the spec: the `LedgerEntry.state` values of the
authoritative per-request state machine (`sonora/core/orchestrator.py` is
absent from the export). -/
inductive LState
  | PENDING
  | DISPATCHED
  | AWAITING_LOCK
  | COMPLETED
  | ABANDONED
  | FALLBACK_DISPATCHED
  | FAILED
deriving Repr, DecidableEq

/-- Modelled from the spec: a `LedgerEntry` — `request_id`,
`current_task_id`, `state`, and the ordered `attempts` log to which every
transition is appended for observability. -/
structure LedgerEntry where
  request_id : Nat
  current_task_id : Nat
  state : LState
  attempts : List (LState × LState)
deriving Repr, DecidableEq

/-- The ledger maps a `request_id` to its entry, if one was created. -/
abbrev Ledger := Nat → Option LedgerEntry

/-- Modelled from the spec: result of `transition`, `ok | Conflict`. -/
inductive TransitionResult
  | ok
  | conflict
deriving Repr, DecidableEq

/-- Pointwise update of the ledger at one `request_id`. -/
def Ledger.update (led : Ledger) (rid : Nat) (e : LedgerEntry) : Ledger :=
  fun r => if r = rid then some e else led r

/-- Modelled from the spec: `create(request_id) -> LedgerEntry`, a fresh
entry in `PENDING`. -/
def Ledger.create (led : Ledger) (rid tid : Nat) : Ledger :=
  led.update rid ⟨rid, tid, .PENDING, []⟩

/-- Modelled from the spec: `transition(request_id, from, to) -> ok |
Conflict` is a compare-and-swap — it fails with `Conflict` (leaving the
ledger unchanged) when the entry is missing or not currently in the
expected `from` state; on success it moves the entry to `to` and appends
the transition to `attempts`. -/
def transition (led : Ledger) (rid : Nat) (fromS toS : LState) :
    TransitionResult × Ledger :=
  match led rid with
  | none => (.conflict, led)
  | some e =>
      if e.state = fromS then
        (.ok, led.update rid
          { e with state := toS, attempts := e.attempts ++ [(fromS, toS)] })
      else (.conflict, led)

/-! ## Handshake Coordinator -/

/-- Modelled from the spec: `ResultArtifact.status`, `ok | error`. -/
inductive ArtStatus
  | ok
  | error
deriving Repr, DecidableEq

/-- Modelled from the spec: a `ResultArtifact` written by a worker into the
`results/` namespace. -/
structure ResultArtifact where
  task_id : Nat
  status : ArtStatus
  payload_ref : String
  completed_at : Nat
deriving Repr, DecidableEq

/-- Modelled from the spec: a `TaskDescriptor`, written once into
`pending/` and never mutated in place. -/
structure TaskDescriptor where
  task_id : Nat
  capability : String
  provider : String
  payload_ref : String
  created_at : Nat
  deadline : Nat
deriving Repr, DecidableEq

/-- The shared results namespace as the environment presents it to one
dispatch: each artifact paired with the instant (a `Nat` clock starting at
the dispatch) at which the worker's rename makes it visible. -/
structure Medium where
  arts : List (Nat × ResultArtifact)
deriving Repr, DecidableEq

/-- The artifacts visible in `results/` at instant `t`. -/
def Medium.visible (m : Medium) (t : Nat) : List ResultArtifact :=
  (m.arts.filter fun p => decide (p.1 ≤ t)).map Prod.snd

/-- Reading `results/<task_id>.result` at instant `t`. -/
def Medium.look (m : Medium) (t tid : Nat) : Option ResultArtifact :=
  (m.visible t).find? fun a => decide (a.task_id = tid)

/-- Modelled from the spec: the poll loop of `dispatch` — the results
namespace is polled at a fixed interval (one clock unit here) at the
instants `0, 1, …, deadline - 1`, strictly before the deadline elapses;
the first observation of `results/<task_id>.result` wins. -/
def pollHit (m : Medium) (tid deadline : Nat) : Option ResultArtifact :=
  (List.range deadline).findSome? fun t => m.look t tid

/-- Modelled from the spec: outcome of `dispatch` — `ResultArtifact |
Timeout | Error`.  `failClosed` is the fail-closed `Error` of step 1 (the
entry was already past `PENDING`). -/
inductive DispatchResult
  | artifact (a : ResultArtifact)
  | timeout
  | failClosed
deriving Repr, DecidableEq

/-- What one `dispatch` call did: its return value, the ledger it leaves
behind, the descriptor it published, whether the Coordinator issued the
delete of that descriptor, and whether the single post-delete re-check was
performed. -/
structure DispatchOutcome where
  result : DispatchResult
  ledger : Ledger
  published : Option TaskDescriptor
  deletedDescriptor : Bool
  rechecked : Bool

/-- Ledger effect of honoring an observed artifact: a worker success
completes the entry (`DISPATCHED → COMPLETED`); a worker-reported failure
leaves it in `DISPATCHED`, from which the Fallback Dispatcher moves it to
`FALLBACK_DISPATCHED` (spec §4.4: `DISPATCHED/ABANDONED →
FALLBACK_DISPATCHED`). -/
def honorArtifact (led : Ledger) (rid : Nat) (a : ResultArtifact) : Ledger :=
  if a.status = .ok then (transition led rid .DISPATCHED .COMPLETED).2 else led

/-- Modelled from the spec: `dispatch(request_id, provider, payload,
deadline) -> ResultArtifact | Timeout | Error` (§4.2).  Step 1 transitions
`PENDING → DISPATCHED`, failing closed; step 2 publishes the descriptor for
the fresh `task_id`; step 3 polls before the deadline; step 4 honors an
observed artifact; step 5 on deadline deletes the descriptor, and step 6
re-checks the results namespace exactly once at the deadline instant —
honoring an artifact found there, otherwise transitioning `DISPATCHED →
ABANDONED` and returning `Timeout`. -/
def dispatch (led : Ledger) (rid tid : Nat) (provider payload : String)
    (deadline : Nat) (m : Medium) : DispatchOutcome :=
  match transition led rid .PENDING .DISPATCHED with
  | (.conflict, _) =>
      { result := .failClosed, ledger := led, published := none,
        deletedDescriptor := false, rechecked := false }
  | (.ok, led1) =>
      let desc : TaskDescriptor :=
        ⟨tid, "synthesis", provider, payload, 0, deadline⟩
      match pollHit m tid deadline with
      | some a =>
          { result := .artifact a, ledger := honorArtifact led1 rid a,
            published := some desc, deletedDescriptor := false,
            rechecked := false }
      | none =>
          match m.look deadline tid with
          | some a =>
              { result := .artifact a, ledger := honorArtifact led1 rid a,
                published := some desc, deletedDescriptor := true,
                rechecked := true }
          | none =>
              { result := .timeout,
                ledger := (transition led1 rid .DISPATCHED .ABANDONED).2,
                published := some desc, deletedDescriptor := true,
                rechecked := true }

/-! ## Fallback Dispatcher -/

/-- Modelled from the spec: how one attempt (one `task_id` with its own
deadline) ends — a worker success, a worker-reported failure
(`ProviderError`), or no artifact at all (`Timeout`). -/
inductive AttemptResult
  | ok (a : ResultArtifact)
  | providerError (a : ResultArtifact)
  | timeout
deriving Repr, DecidableEq

/-- The artifact one attempt observes: the first poll hit before the
deadline, or the single post-delete re-check at the deadline instant. -/
def observeAttempt (m : Medium) (tid deadline : Nat) : Option ResultArtifact :=
  match pollHit m tid deadline with
  | some a => some a
  | none => m.look deadline tid

/-- Classification of one attempt by its observation and the artifact
status (spec §7: `Timeout` and `ProviderError` are the retryable-via-
fallback outcomes). -/
def classifyAttempt (m : Medium) (tid deadline : Nat) : AttemptResult :=
  match observeAttempt m tid deadline with
  | some a => if a.status = .ok then .ok a else .providerError a
  | none => .timeout

/-- An observable protocol event on the shared medium or the ledger. -/
inductive Event
  | publish (tid : Nat)
  | deleteDesc (tid : Nat)
  | observed (a : ResultArtifact)
  | ledgerMove (fromS toS : LState)
deriving Repr, DecidableEq

/-- Modelled from the spec: the medium events of one attempt.  The
descriptor is published, then: found by polling — the artifact is observed
and the finished task's descriptor is deleted (a descriptor update is a
delete + republish under a new `task_id`, and at most one descriptor per
request may stay live); not found by polling — the Coordinator deletes the
descriptor at the deadline and the single re-check either observes a late
artifact or nothing. -/
def attemptTrace (m : Medium) (tid deadline : Nat) : List Event :=
  Event.publish tid ::
    match pollHit m tid deadline with
    | some a => [.observed a, .deleteDesc tid]
    | none =>
        match m.look deadline tid with
        | some a => [.deleteDesc tid, .observed a]
        | none => [.deleteDesc tid]

/-- Modelled from the spec: terminal outcome of the Fallback Dispatcher per
logical request — `DONE` with an artifact, or `FAILED`. -/
inductive FallbackFinal
  | done (a : ResultArtifact)
  | failed
deriving Repr, DecidableEq

/-- What one run of the Fallback Dispatcher did for one logical request. -/
structure FallbackOutcome where
  final : FallbackFinal
  ledger : Ledger
  secondaryInvoked : Bool
  attempts : List AttemptResult
  trace : List Event

/-- Modelled from the spec: the Fallback Dispatcher state machine
`PRIMARY_ATTEMPT → {DONE | SECONDARY_ATTEMPT} → {DONE | FAILED}` (§4.4).
The primary provider is tried under the short deadline `d1` with task
`tid1`; on `Timeout` (entry abandoned) or `ProviderError` (entry still
`DISPATCHED`) the entry moves to `FALLBACK_DISPATCHED` and the secondary
provider is tried under the longer deadline `d2` with the fresh task
`tid2`; a successful attempt completes the entry; exhausting the secondary
yields `FAILED`; there is no tertiary attempt. -/
def fallbackDispatch (led : Ledger) (rid tid1 tid2 d1 d2 : Nat) (m : Medium) :
    FallbackOutcome :=
  match transition led rid .PENDING .DISPATCHED with
  | (.conflict, _) =>
      { final := .failed, ledger := led, secondaryInvoked := false,
        attempts := [], trace := [] }
  | (.ok, led1) =>
      let tr1 := attemptTrace m tid1 d1
      match classifyAttempt m tid1 d1 with
      | .ok a =>
          { final := .done a,
            ledger := (transition led1 rid .DISPATCHED .COMPLETED).2,
            secondaryInvoked := false, attempts := [.ok a],
            trace := Event.ledgerMove .PENDING .DISPATCHED :: tr1 ++
              [.ledgerMove .DISPATCHED .COMPLETED] }
      | .providerError a =>
          secondaryAttempt led1 rid tid2 d2 m (.providerError a) tr1
            .DISPATCHED []
      | .timeout =>
          secondaryAttempt (transition led1 rid .DISPATCHED .ABANDONED).2
            rid tid2 d2 m .timeout tr1 .ABANDONED
            [.ledgerMove .DISPATCHED .ABANDONED]
where
  /-- The `SECONDARY_ATTEMPT` leg: `DISPATCHED/ABANDONED →
  FALLBACK_DISPATCHED`, one more attempt, then `COMPLETED` or `FAILED`. -/
  secondaryAttempt (ledA : Ledger) (rid tid2 d2 : Nat) (m : Medium)
      (r1 : AttemptResult) (tr1 : List Event) (fromA : LState)
      (moves1 : List Event) : FallbackOutcome :=
    let ledF := (transition ledA rid fromA .FALLBACK_DISPATCHED).2
    let tr2 := attemptTrace m tid2 d2
    let pre := Event.ledgerMove .PENDING .DISPATCHED :: tr1 ++ moves1 ++
      Event.ledgerMove fromA .FALLBACK_DISPATCHED :: tr2
    match classifyAttempt m tid2 d2 with
    | .ok a =>
        { final := .done a,
          ledger := (transition ledF rid .FALLBACK_DISPATCHED .COMPLETED).2,
          secondaryInvoked := true, attempts := [r1, .ok a],
          trace := pre ++ [.ledgerMove .FALLBACK_DISPATCHED .COMPLETED] }
    | r2 =>
        { final := .failed,
          ledger := (transition ledF rid .FALLBACK_DISPATCHED .FAILED).2,
          secondaryInvoked := true, attempts := [r1, r2],
          trace := pre ++ [.ledgerMove .FALLBACK_DISPATCHED .FAILED] }

/-- One medium step of the live-descriptor audit (spec §8: "checkable by
scanning `pending/`"): a publish adds the task, a delete removes it. -/
def liveStep (live : List Nat) : Event → List Nat
  | .publish t => t :: live
  | .deleteDesc t => live.erase t
  | _ => live

/-- The tasks whose descriptors are live (published, not yet deleted) after
a trace prefix. -/
def liveDescriptors (tr : List Event) : List Nat :=
  tr.foldl liveStep []

/-! ## Hardware Lock -/

/-- The single logical scarce resource (§4.3: the accelerator). -/
def theResource : String := "accelerator"

/-- Modelled from the spec: a `LockToken` — `resource_id`, `holder_id`,
`acquired_at`, `lease_expires_at` (`locks/<resource_id>.lock`). -/
structure LockToken where
  resource_id : String
  holder_id : Nat
  acquired_at : Nat
  lease_expires_at : Nat
deriving Repr, DecidableEq

/-- A granted token together with the instant (if any) at which its holder
released it; a record with `releasedAt = none` that is no longer current
belongs to a holder that crashed or let the lease lapse. -/
structure GrantRecord where
  token : LockToken
  releasedAt : Option Nat
deriving Repr, DecidableEq

/-- Modelled from the spec: the state of the Hardware Lock broker — the
wall clock, the FIFO queue of waiting holders, the current lock file
(`locks/<resource_id>.lock`, at most one), and the history of every token
ever granted (kept for stating the mutual-exclusion invariant). -/
structure LockState where
  now : Nat
  queue : List Nat
  current : Option GrantRecord
  past : List GrantRecord
deriving Repr, DecidableEq

/-- Modelled from the spec: the atomic actions of the Hardware Lock broker.
`acquire` is the pair enqueue (the flow joins the FIFO queue) / grant (the
head of the queue obtains the lock once it is free or the lease expired);
`renew` extends a live lease; `release` surrenders one; `tick` lets the
wall clock advance between actions. -/
inductive LockAction
  | tick (d : Nat)
  | enqueue (h : Nat)
  | grant (lease_ttl : Nat)
  | renew (tok : LockToken) (lease_ttl : Nat)
  | release (tok : LockToken)
deriving Repr, DecidableEq

/-- Whether the resource is free for the next grant: no current token, or
the current lease has expired without `renew` (the token is then treated
as abandoned). -/
def lockFree (s : LockState) : Bool :=
  match s.current with
  | none => true
  | some r => decide (r.token.lease_expires_at ≤ s.now)

/-- Modelled from the spec: one atomic step of the Hardware Lock broker
(§4.3).  A grant hands the head of the FIFO queue a fresh token whose
lease expires `lease_ttl` after acquisition, superseding an expired token;
`renew` extends only the current, unexpired token; `release` of an expired
or stale token is a no-op. -/
def lockStep (s : LockState) : LockAction → LockState
  | .tick d => { s with now := s.now + d }
  | .enqueue h => { s with queue := s.queue ++ [h] }
  | .grant ttl =>
      match s.queue with
      | [] => s
      | h :: rest =>
          if lockFree s then
            { s with queue := rest,
                     current := some ⟨⟨theResource, h, s.now, s.now + ttl⟩, none⟩,
                     past := match s.current with
                       | none => s.past
                       | some r => r :: s.past }
          else s
  | .renew tok ttl =>
      match s.current with
      | none => s
      | some r =>
          if r.token = tok ∧ s.now < tok.lease_expires_at then
            let tok2 := { tok with lease_expires_at := s.now + ttl }
            { s with current := some ⟨tok2, none⟩ }
          else s
  | .release tok =>
      match s.current with
      | none => s
      | some r =>
          if r.token = tok ∧ s.now < tok.lease_expires_at then
            { s with current := none,
                     past := { r with releasedAt := some s.now } :: s.past }
          else s

/-- The initial broker state: clock zero, empty queue, lock free. -/
def lockInit : LockState := ⟨0, [], none, []⟩

/-- Running the broker over a sequence of actions from the initial state;
an arbitrary action list covers every interleaving of concurrent flows. -/
def lockRun (acts : List LockAction) : LockState :=
  acts.foldl lockStep lockInit

/-- Every token ever granted in a state: the current one and the history. -/
def allGrants (s : LockState) : List GrantRecord :=
  (match s.current with
   | none => []
   | some r => [r]) ++ s.past

/-- The instant a grant stopped being valid: its release instant, if any,
capped by its lease expiry. -/
def endT (r : GrantRecord) : Nat :=
  match r.releasedAt with
  | some rt => min rt r.token.lease_expires_at
  | none => r.token.lease_expires_at

/-- Whether a granted token is held-and-unexpired at instant `t`: granted
by `t`, lease not yet expired, not yet released. -/
def validAt (t : Nat) (r : GrantRecord) : Bool :=
  decide (r.token.acquired_at ≤ t) && decide (t < r.token.lease_expires_at) &&
    (match r.releasedAt with
     | some rt => decide (t < rt)
     | none => true)

/-- The inductive invariant of the Hardware Lock broker: every past grant
ended by now; the current grant is unreleased; every past grant ended by
the time the current one was acquired; and past grants (newest first) have
pairwise ordered lifetimes. -/
def LockInv (s : LockState) : Prop :=
  (∀ r ∈ s.past, endT r ≤ s.now) ∧
  (∀ c, s.current = some c → c.releasedAt = none) ∧
  (∀ c, s.current = some c → ∀ r ∈ s.past, endT r ≤ c.token.acquired_at) ∧
  s.past.Pairwise fun a b => endT b ≤ a.token.acquired_at

/-- Scanner for the live-descriptor audit: checks that after every event of
the trace at most one descriptor is live. -/
def liveOkAux (live : List Nat) : List Event → Bool
  | [] => true
  | e :: tr =>
      let l2 := liveStep live e
      decide (l2.length ≤ 1) && liveOkAux l2 tr

/-! ## Concrete fixtures used by the witness theorems -/

/-- A dialogue segment with translation "hello world" and three morae. -/
def wSeg : DialogueSegment :=
  { id := "s1", speaker_id := "Rin", start := 0, endTime := 2,
    original := "konnichiwa", translation := "hello world", morae_count := 3,
    syllable_count := 3, emotion := "Neutral", prosody_instruction := "",
    stretch_rate := 1, spectral_match := false, artifacts := [],
    nisqa_score := none, surgery_complete := none, emotional_priority := none,
    intensity_data := none }

/-- The committed form of `wSeg`. -/
def wSegDone : DialogueSegment := { wSeg with surgery_complete := some true }

/-- A port-probe environment where everything below 8002 is listening. -/
def wBusy : Nat → Bool := fun p => decide (p < 8002)

/-- A ledger holding the single request 7 in `PENDING` with task 100. -/
def wLed : Ledger := Ledger.create (fun _ => none) 7 100

/-- The entry `wLed` holds at request 7. -/
def wEntry : LedgerEntry := ⟨7, 100, .PENDING, []⟩

/-- A medium where the worker answers task 100 at instant 3. -/
def wMedOk : Medium := ⟨[(3, ⟨100, .ok, "out.wav", 3⟩)]⟩

/-- A medium where the worker answers task 100 only at instant 12 — after a
deadline of 10 (the spec's 5.0s-deadline / 5.2s-answer scenario). -/
def wMedLate : Medium := ⟨[(12, ⟨100, .ok, "late.wav", 12⟩)]⟩

/-- A medium where the artifact for task 100 becomes visible exactly at the
post-delete re-check instant for deadline 10. -/
def wMedRecheck : Medium := ⟨[(10, ⟨100, .ok, "edge.wav", 10⟩)]⟩

/-- A medium where the primary task 100 reports a provider error and the
secondary task 101 succeeds. -/
def wMedFb : Medium := ⟨[(3, ⟨100, .error, "err", 3⟩), (4, ⟨101, .ok, "fb.wav", 4⟩)]⟩

/-- A broker state where holder 1 acquired at 0 with lease 5, crashed, the
clock reached 7, and holder 2 waits in the queue. -/
def wLock : LockState :=
  lockRun [.enqueue 1, .grant 5, .tick 7, .enqueue 2]

/-- The crashed holder's token in `wLock`. -/
def wTok : LockToken := ⟨theResource, 1, 0, 5⟩

/-! ## Theorems -/

/-- C7: `transition(request_id, from, to)` is a compare-and-swap: with the
entry currently in `from` it succeeds and moves the entry to `to`
(appending to `attempts`); with the entry absent or in any other state it
returns `Conflict` and leaves the ledger unchanged; and after a
state-changing success a second `transition` expecting the same `from`
state fails with `Conflict` — so a late-arriving result and a
timeout-driven abandonment can never both mutate the same entry. -/
theorem C7_transition_compare_and_swap (led : Ledger) (rid : Nat)
    (fromS toS : LState) :
    (∀ e, led rid = some e →
      (e.state = fromS →
        (transition led rid fromS toS).1 = .ok ∧
        (transition led rid fromS toS).2 rid =
          some { e with state := toS,
                        attempts := e.attempts ++ [(fromS, toS)] }) ∧
      (e.state ≠ fromS →
        (transition led rid fromS toS).1 = .conflict ∧
        (transition led rid fromS toS).2 = led)) ∧
    (led rid = none →
      (transition led rid fromS toS).1 = .conflict ∧
      (transition led rid fromS toS).2 = led) ∧
    (∀ e, led rid = some e → e.state = fromS → fromS ≠ toS → ∀ toS2,
      (transition (transition led rid fromS toS).2 rid fromS toS2).1 =
        .conflict) := by
  refine ⟨fun e he => ⟨fun hst => ?_, fun hst => ?_⟩, fun he => ?_,
    fun e he hst hne toS2 => ?_⟩
  · simp [transition, he, hst, Ledger.update]
  · simp [transition, he, hst]
  · simp [transition, he]
  · simp [transition, he, hst, Ledger.update, Ne.symm hne]

/-- Witness for C7 at the concrete ledger `wLed`: moving request 7 from
`PENDING` to `DISPATCHED` succeeds, and re-running the same
compare-and-swap afterwards conflicts. -/
theorem C7_transition_compare_and_swap_witness :
    (transition wLed 7 .PENDING .DISPATCHED).1 = .ok ∧
    (transition wLed 7 .PENDING .DISPATCHED).2 7 =
      some { wEntry with state := .DISPATCHED,
                         attempts := [(.PENDING, .DISPATCHED)] } ∧
    (transition (transition wLed 7 .PENDING .DISPATCHED).2 7 .PENDING
      .ABANDONED).1 = .conflict := by
  have h := C7_transition_compare_and_swap wLed 7 .PENDING .DISPATCHED
  have he : wLed 7 = some wEntry := rfl
  refine ⟨((h.1 wEntry he).1 rfl).1, ((h.1 wEntry he).1 rfl).2, ?_⟩
  exact h.2.2 wEntry he rfl (by decide) .ABANDONED

/-- The loop of `find_free_port` returns a port in the scanned window, free,
and minimal among the scanned candidates. -/
theorem find_free_port_aux_some (busy : Nat → Bool) :
    ∀ k p q, find_free_port_aux busy p k = some q →
      p ≤ q ∧ q ≤ p + k ∧ busy q = false ∧
        ∀ r, p ≤ r → r < q → busy r = true := by
  intro k
  induction k with
  | zero =>
      intro p q h
      by_cases hb : busy p = true
      · simp [find_free_port_aux, hb] at h
      · rw [find_free_port_aux, Bool.eq_false_iff.mpr hb] at h
        simp at h
        subst h
        exact ⟨le_refl _, by omega, Bool.eq_false_iff.mpr hb,
          fun r h1 h2 => absurd (lt_of_le_of_lt h1 h2) (lt_irrefl _)⟩
  | succ k ih =>
      intro p q h
      by_cases hb : busy p = true
      · rw [find_free_port_aux, hb] at h
        simp at h
        obtain ⟨h1, h2, h3, h4⟩ := ih (p + 1) q h
        refine ⟨by omega, by omega, h3, fun r hr1 hr2 => ?_⟩
        rcases Nat.eq_or_lt_of_le hr1 with hr | hr
        · exact hr ▸ hb
        · exact h4 r (by omega) hr2
      · rw [find_free_port_aux, Bool.eq_false_iff.mpr hb] at h
        simp at h
        subst h
        exact ⟨le_refl _, by omega, Bool.eq_false_iff.mpr hb,
          fun r h1 h2 => absurd (lt_of_le_of_lt h1 h2) (lt_irrefl _)⟩

/-- The loop of `find_free_port` fails exactly when every scanned candidate
is busy. -/
theorem find_free_port_aux_none (busy : Nat → Bool) :
    ∀ k p, find_free_port_aux busy p k = none ↔
      ∀ i, i ≤ k → busy (p + i) = true := by
  intro k
  induction k with
  | zero =>
      intro p
      constructor
      · intro h i hi
        interval_cases i
        by_cases hb : busy p = true
        · simpa using hb
        · rw [find_free_port_aux, Bool.eq_false_iff.mpr hb] at h
          simp at h
      · intro h
        have := h 0 (le_refl _)
        simp only [Nat.add_zero] at this
        simp [find_free_port_aux, this]
  | succ k ih =>
      intro p
      constructor
      · intro h i hi
        by_cases hb : busy p = true
        · rw [find_free_port_aux, hb] at h
          simp only [Bool.not_true, Bool.false_eq_true, if_false] at h
          match i, hi with
          | 0, _ => simpa using hb
          | j + 1, hj =>
              have := (ih (p + 1)).mp h j (by omega)
              have heq : p + 1 + j = p + (j + 1) := by omega
              rwa [heq] at this
        · rw [find_free_port_aux, Bool.eq_false_iff.mpr hb] at h
          simp at h
      · intro h
        have hb : busy p = true := by simpa using h 0 (by omega)
        rw [find_free_port_aux, hb]
        simp only [Bool.not_true, Bool.false_eq_true, if_false]
        refine (ih (p + 1)).mpr fun j hj => ?_
        have heq : p + 1 + j = p + (j + 1) := by omega
        rw [heq]
        exact h (j + 1) (by omega)

/-- C10: `find_free_port(P)` returns the smallest port `p` in `P..P+10`
whose listener probe is negative, and the entrypoint aborts printing
`No free ports found near P` exactly when all eleven candidates `P..P+10`
are in use. -/
theorem C10_find_free_port_minimal (busy : Nat → Bool) (P : Nat) :
    (∀ p, find_free_port busy P = some p →
      P ≤ p ∧ p ≤ P + 10 ∧ busy p = false ∧
        ∀ q, P ≤ q → q < p → busy q = true) ∧
    (find_free_port busy P = none ↔ ∀ i, i ≤ 10 → busy (P + i) = true) ∧
    (∀ p, find_free_port busy P = some p → entrypointSelectPort busy P = .ok p) ∧
    (entrypointSelectPort busy P =
        .error ("No free ports found near " ++ toString P) ↔
      ∀ i, i ≤ 10 → busy (P + i) = true) := by
  refine ⟨fun p h => find_free_port_aux_some busy MAX_TRIES P p h,
    find_free_port_aux_none busy MAX_TRIES P, fun p h => ?_, ?_⟩
  · simp [entrypointSelectPort, h]
  · constructor
    · intro h
      cases hf : find_free_port busy P with
      | none => exact (find_free_port_aux_none busy MAX_TRIES P).mp hf
      | some p => simp [entrypointSelectPort, hf] at h
    · intro h
      have hf : find_free_port busy P = none :=
        (find_free_port_aux_none busy MAX_TRIES P).mpr h
      simp [entrypointSelectPort, hf]

/-- Witness for C10: with every port below 8002 listening, the entrypoint
selects 8002 for preferred port 8000, and it is minimal. -/
theorem C10_find_free_port_minimal_witness :
    (8000 ≤ 8002 ∧ 8002 ≤ 8000 + 10 ∧ wBusy 8002 = false ∧
      ∀ q, 8000 ≤ q → q < 8002 → wBusy q = true) ∧
    entrypointSelectPort wBusy 8000 = .ok 8002 := by
  have h := C10_find_free_port_minimal wBusy 8000
  exact ⟨h.1 8002 (by decide), h.2.2.1 8002 (by decide)⟩

/-- Folding syllable counts equals summing them. -/
theorem foldl_countSyllables (l : List String) (n : Nat) :
    l.foldl (fun acc w => acc + countSyllables w) n =
      n + (l.map countSyllables).sum := by
  induction l generalizing n with
  | nil => simp
  | cons w l ih => simp [List.foldl_cons, ih, Nat.add_assoc]

/-- The violation flag holds exactly when the stretch ratio leaves
`[0.8, 1.3]`. -/
theorem isViolation_spec (seg : DialogueSegment) :
    (calculateMoraeProgress seg).isViolation = true ↔
      (13/10 < (calculateMoraeProgress seg).ratio ∨
        (calculateMoraeProgress seg).ratio < (8 : Rat)/10) := by
  simp [calculateMoraeProgress]

/-- C9: the Commit Changes action fires only when the stretch ratio — the
summed `countSyllables` of the whitespace-split translation over the morae
target (10 when `morae_count` is 0/missing) — lies in `[0.8, 1.3]`; it is
blocked when the ratio is above 1.3 or below 0.8; and the committed
segment is exactly the edited segment with `surgery_complete` set. -/
theorem C9_commit_gate (seg out : DialogueSegment) :
    (calculateMoraeProgress seg).ratio =
      (((splitWS seg.translation).map countSyllables).sum : Rat) /
        (((if seg.morae_count = 0 then 10 else seg.morae_count) : Nat) : Rat) ∧
    (commitChanges seg = some out →
      ((8 : Rat)/10 ≤ (calculateMoraeProgress seg).ratio ∧
        (calculateMoraeProgress seg).ratio ≤ 13/10) ∧
      out = { seg with surgery_complete := some true }) ∧
    ((13/10 < (calculateMoraeProgress seg).ratio ∨
        (calculateMoraeProgress seg).ratio < (8 : Rat)/10) →
      commitChanges seg = none) := by
  refine ⟨?_, fun hc => ?_, fun hv => ?_⟩
  · simp [calculateMoraeProgress, foldl_countSyllables]
  · unfold commitChanges at hc
    by_cases hviol : (calculateMoraeProgress seg).isViolation = true
    · simp [hviol] at hc
    · rw [if_neg hviol] at hc
      refine ⟨?_, (Option.some_injective _ hc).symm⟩
      have hnot : ¬ (13/10 < (calculateMoraeProgress seg).ratio ∨
          (calculateMoraeProgress seg).ratio < (8 : Rat)/10) :=
        fun h => hviol ((isViolation_spec seg).mpr h)
      push_neg at hnot
      exact ⟨hnot.2, hnot.1⟩
  · unfold commitChanges
    simp [(isViolation_spec seg).mpr hv]

/-- Witness for C9: the segment `wSeg` ("hello world", 3 morae) has ratio 1,
commits, and the committed segment is `wSeg` with `surgery_complete`. -/
theorem C9_commit_gate_witness :
    ((8 : Rat)/10 ≤ (calculateMoraeProgress wSeg).ratio ∧
      (calculateMoraeProgress wSeg).ratio ≤ 13/10) ∧
    wSegDone = { wSeg with surgery_complete := some true } := by
  have h := C9_commit_gate wSeg wSegDone
  have hsum : ((splitWS wSeg.translation).map countSyllables).sum = 3 := by decide
  have hrat : (calculateMoraeProgress wSeg).ratio = 1 := by
    rw [h.1, hsum]
    norm_num [wSeg]
  apply h.2.1
  unfold commitChanges
  have hviol : (calculateMoraeProgress wSeg).isViolation = false := by
    rw [Bool.eq_false_iff]
    intro hv
    rw [isViolation_spec wSeg, hrat] at hv
    revert hv
    norm_num
  rw [hviol]
  rfl

/-- Anything read from `results/<task_id>.result` carries that task id. -/
theorem look_task_id (m : Medium) {t tid : Nat} {a : ResultArtifact}
    (h : m.look t tid = some a) : a.task_id = tid := by
  unfold Medium.look at h
  simpa using List.find?_some h

/-- Anything the poll loop observes carries the polled task id. -/
theorem pollHit_task_id (m : Medium) {tid d : Nat} {a : ResultArtifact}
    (h : pollHit m tid d = some a) : a.task_id = tid := by
  unfold pollHit at h
  obtain ⟨t, _, hl⟩ := List.exists_of_findSome?_eq_some h
  exact look_task_id m hl

/-- If every artifact for `tid` becomes visible only after `t0`, then no
read of `results/<tid>.result` at an instant `≤ t0` sees anything. -/
theorem look_eq_none_of_late (m : Medium) {tid t0 : Nat}
    (h : ∀ p ∈ m.arts, p.2.task_id = tid → t0 < p.1) {t : Nat} (ht : t ≤ t0) :
    m.look t tid = none := by
  unfold Medium.look
  rw [List.find?_eq_none]
  intro a hmem
  unfold Medium.visible at hmem
  simp only [List.mem_map, List.mem_filter] at hmem
  obtain ⟨p, ⟨hp, hple⟩, rfl⟩ := hmem
  intro hdec
  have htid : p.2.task_id = tid := of_decide_eq_true hdec
  have := h p hp htid
  have hle : p.1 ≤ t0 := le_trans (of_decide_eq_true hple) ht
  omega

/-- If every artifact for `tid` becomes visible only after the deadline,
the poll loop observes nothing. -/
theorem pollHit_eq_none_of_late (m : Medium) {tid deadline : Nat}
    (h : ∀ p ∈ m.arts, p.2.task_id = tid → deadline < p.1) :
    pollHit m tid deadline = none := by
  unfold pollHit
  rw [List.findSome?_eq_none_iff]
  intro t ht
  exact look_eq_none_of_late m h (le_of_lt (List.mem_range.mp ht))

/-- C2: an artifact is returned by `dispatch` only when its `task_id` is the
`task_id` of the descriptor this dispatch published (the currently-live
task of the request); an artifact carrying any other — e.g. abandoned —
`task_id` is never propagated to the caller. -/
theorem C2_no_ghost_artifact (led : Ledger) (rid tid : Nat)
    (prov pay : String) (deadline : Nat) (m : Medium) :
    (∀ a, (dispatch led rid tid prov pay deadline m).result = .artifact a →
      a.task_id = tid) ∧
    (∀ d, (dispatch led rid tid prov pay deadline m).published = some d →
      d.task_id = tid) := by
  constructor
  · intro a ha
    unfold dispatch at ha
    rcases h1 : transition led rid .PENDING .DISPATCHED with ⟨res, led1⟩
    rw [h1] at ha
    cases res with
    | conflict => simp at ha
    | ok =>
        cases h2 : pollHit m tid deadline with
        | some a0 =>
            rw [h2] at ha
            simp at ha
            subst ha
            exact pollHit_task_id m h2
        | none =>
            rw [h2] at ha
            cases h3 : m.look deadline tid with
            | some a0 =>
                rw [h3] at ha
                simp at ha
                subst ha
                exact look_task_id m h3
            | none =>
                rw [h3] at ha
                simp at ha
  · intro d hd
    unfold dispatch at hd
    rcases h1 : transition led rid .PENDING .DISPATCHED with ⟨res, led1⟩
    rw [h1] at hd
    cases res with
    | conflict => simp at hd
    | ok =>
        cases h2 : pollHit m tid deadline with
        | some a0 =>
            rw [h2] at hd
            simp at hd
            subst hd
            rfl
        | none =>
            rw [h2] at hd
            cases h3 : m.look deadline tid with
            | some a0 =>
                rw [h3] at hd
                simp at hd
                subst hd
                rfl
            | none =>
                rw [h3] at hd
                simp at hd
                subst hd
                rfl

/-- Witness for C2 at the concrete fixture: the artifact returned for task
100 under `wMedOk` indeed carries task id 100. -/
theorem C2_no_ghost_artifact_witness :
    (⟨100, .ok, "out.wav", 3⟩ : ResultArtifact).task_id = 100 := by
  have h := C2_no_ghost_artifact wLed 7 100 "qwen3" "p.json" 10 wMedOk
  exact h.1 ⟨100, .ok, "out.wav", 3⟩ rfl

/-- C3: when no artifact for the current task appears by the deadline (nor
at the post-delete re-check instant), `dispatch` deletes the published
descriptor, transitions the ledger entry `DISPATCHED → ABANDONED`, and
returns `Timeout`. -/
theorem C3_timeout_abandons (led : Ledger) (rid tid : Nat)
    (prov pay : String) (deadline : Nat) (m : Medium) (e : LedgerEntry)
    (hled : led rid = some e) (hst : e.state = .PENDING)
    (hlate : ∀ p ∈ m.arts, p.2.task_id = tid → deadline < p.1) :
    (dispatch led rid tid prov pay deadline m).result = .timeout ∧
    (dispatch led rid tid prov pay deadline m).deletedDescriptor = true ∧
    (dispatch led rid tid prov pay deadline m).published =
      some ⟨tid, "synthesis", prov, pay, 0, deadline⟩ ∧
    (dispatch led rid tid prov pay deadline m).ledger rid =
      some { e with
        state := .ABANDONED
        attempts := e.attempts ++
          [(.PENDING, .DISPATCHED), (.DISPATCHED, .ABANDONED)] } := by
  have h1 : transition led rid .PENDING .DISPATCHED =
      (.ok, Ledger.update led rid { e with
        state := .DISPATCHED
        attempts := e.attempts ++ [(.PENDING, .DISPATCHED)] }) := by
    simp [transition, hled, hst]
  have h2 := pollHit_eq_none_of_late m hlate
  have h3 := look_eq_none_of_late m hlate (le_refl deadline)
  unfold dispatch
  rw [h1, h2, h3]
  refine ⟨rfl, rfl, rfl, ?_⟩
  simp [transition, Ledger.update]

/-- Witness for C3: the 5.0s/5.2s scenario in clock units — deadline 10,
worker answers at 12 — yields Timeout with the entry abandoned. -/
theorem C3_timeout_abandons_witness :
    (dispatch wLed 7 100 "qwen3" "p.json" 10 wMedLate).result = .timeout ∧
    (dispatch wLed 7 100 "qwen3" "p.json" 10 wMedLate).deletedDescriptor =
      true ∧
    (dispatch wLed 7 100 "qwen3" "p.json" 10 wMedLate).ledger 7 =
      some { wEntry with
        state := .ABANDONED
        attempts := [(.PENDING, .DISPATCHED), (.DISPATCHED, .ABANDONED)] } := by
  have h := C3_timeout_abandons wLed 7 100 "qwen3" "p.json" 10 wMedLate
    wEntry rfl rfl (by decide)
  exact ⟨h.1, h.2.1, h.2.2.2⟩

/-- C4: immediately after deleting the descriptor, `dispatch` re-checks the
results namespace exactly once; an artifact present at that re-check is
honored — the entry moves to `COMPLETED` and the artifact is returned
instead of `Timeout` — while artifacts appearing only after the re-check
instant (e.g. at 5.2s with a 5.0s deadline) are discarded as stale. -/
theorem C4_post_delete_recheck (led : Ledger) (rid tid : Nat)
    (prov pay : String) (deadline : Nat) (m : Medium) (e : LedgerEntry)
    (hled : led rid = some e) (hst : e.state = .PENDING) :
    (∀ a, pollHit m tid deadline = none → m.look deadline tid = some a →
      (dispatch led rid tid prov pay deadline m).result = .artifact a ∧
      (dispatch led rid tid prov pay deadline m).deletedDescriptor = true ∧
      (dispatch led rid tid prov pay deadline m).rechecked = true ∧
      (a.status = .ok →
        (dispatch led rid tid prov pay deadline m).ledger rid =
          some { e with
            state := .COMPLETED
            attempts := e.attempts ++
              [(.PENDING, .DISPATCHED), (.DISPATCHED, .COMPLETED)] })) ∧
    ((∀ p ∈ m.arts, p.2.task_id = tid → deadline < p.1) →
      (dispatch led rid tid prov pay deadline m).result = .timeout ∧
      (dispatch led rid tid prov pay deadline m).rechecked = true) := by
  have h1 : transition led rid .PENDING .DISPATCHED =
      (.ok, Ledger.update led rid { e with
        state := .DISPATCHED
        attempts := e.attempts ++ [(.PENDING, .DISPATCHED)] }) := by
    simp [transition, hled, hst]
  constructor
  · intro a hpoll hre
    unfold dispatch
    rw [h1, hpoll, hre]
    refine ⟨rfl, rfl, rfl, fun hok => ?_⟩
    simp [honorArtifact, hok, transition, Ledger.update]
  · intro hlate
    have h2 := pollHit_eq_none_of_late m hlate
    have h3 := look_eq_none_of_late m hlate (le_refl deadline)
    unfold dispatch
    rw [h1, h2, h3]
    exact ⟨rfl, rfl⟩

/-- Witness for C4: with the artifact for task 100 visible exactly at the
re-check instant (deadline 10), dispatch returns it and completes the
entry. -/
theorem C4_post_delete_recheck_witness :
    (dispatch wLed 7 100 "qwen3" "p.json" 10 wMedRecheck).result =
      .artifact ⟨100, .ok, "edge.wav", 10⟩ ∧
    (dispatch wLed 7 100 "qwen3" "p.json" 10 wMedRecheck).rechecked = true ∧
    (dispatch wLed 7 100 "qwen3" "p.json" 10 wMedRecheck).ledger 7 =
      some { wEntry with
        state := .COMPLETED
        attempts := [(.PENDING, .DISPATCHED), (.DISPATCHED, .COMPLETED)] } := by
  have h := C4_post_delete_recheck wLed 7 100 "qwen3" "p.json" 10 wMedRecheck
    wEntry rfl rfl
  have h2 := h.1 ⟨100, .ok, "edge.wav", 10⟩ (by decide) (by decide)
  exact ⟨h2.1, h2.2.2.1, h2.2.2.2 rfl⟩

/-- C5: the secondary provider is invoked iff the primary attempt ended in
`Timeout` or `ProviderError`; a primary that yields a success artifact
never triggers the secondary; there are at most two attempts (no tertiary);
and a secondary that also ends in `Timeout` or `ProviderError` makes the
terminal outcome `FAILED`. -/
theorem C5_fallback_iff (led : Ledger) (rid tid1 tid2 d1 d2 : Nat)
    (m : Medium) (e : LedgerEntry)
    (hled : led rid = some e) (hst : e.state = .PENDING) :
    ((fallbackDispatch led rid tid1 tid2 d1 d2 m).secondaryInvoked = true ↔
      (classifyAttempt m tid1 d1 = .timeout ∨
        ∃ a, classifyAttempt m tid1 d1 = .providerError a)) ∧
    (∀ a, classifyAttempt m tid1 d1 = .ok a →
      (fallbackDispatch led rid tid1 tid2 d1 d2 m).secondaryInvoked = false ∧
      (fallbackDispatch led rid tid1 tid2 d1 d2 m).final = .done a) ∧
    (fallbackDispatch led rid tid1 tid2 d1 d2 m).attempts.length ≤ 2 ∧
    ((classifyAttempt m tid1 d1 = .timeout ∨
        (∃ a, classifyAttempt m tid1 d1 = .providerError a)) →
      (classifyAttempt m tid2 d2 = .timeout ∨
        (∃ a, classifyAttempt m tid2 d2 = .providerError a)) →
      (fallbackDispatch led rid tid1 tid2 d1 d2 m).final = .failed) := by
  have h1 : transition led rid .PENDING .DISPATCHED =
      (.ok, Ledger.update led rid { e with
        state := .DISPATCHED
        attempts := e.attempts ++ [(.PENDING, .DISPATCHED)] }) := by
    simp [transition, hled, hst]
  unfold fallbackDispatch
  rw [h1]
  cases hc1 : classifyAttempt m tid1 d1 with
  | ok a => simp
  | providerError a =>
      unfold fallbackDispatch.secondaryAttempt
      cases hc2 : classifyAttempt m tid2 d2 <;> simp
  | timeout =>
      unfold fallbackDispatch.secondaryAttempt
      cases hc2 : classifyAttempt m tid2 d2 <;> simp

/-- Witness for C5: under `wMedFb` the primary (task 100) reports a provider
error, the secondary (task 101) is invoked; under `wMedLate` both attempts
time out and the outcome is `FAILED`. -/
theorem C5_fallback_iff_witness :
    (fallbackDispatch wLed 7 100 101 10 20 wMedFb).secondaryInvoked = true ∧
    (fallbackDispatch wLed 7 100 101 10 20 wMedLate).final = .failed := by
  have h1 := C5_fallback_iff wLed 7 100 101 10 20 wMedFb wEntry rfl rfl
  have h2 := C5_fallback_iff wLed 7 100 101 10 20 wMedLate wEntry rfl rfl
  constructor
  · exact h1.1.mpr (Or.inr ⟨⟨100, .error, "err", 3⟩, by decide⟩)
  · exact h2.2.2.2 (Or.inl (by decide)) (Or.inl (by decide))

/-- A passing scan means every prefix of the trace leaves at most one
descriptor live. -/
theorem liveOk_prefix (tr : List Event) :
    ∀ live, liveOkAux live tr = true → live.length ≤ 1 →
      ∀ k, (List.foldl liveStep live (tr.take k)).length ≤ 1 := by
  induction tr with
  | nil =>
      intro live _ h0 k
      simpa using h0
  | cons e tr ih =>
      intro live h h0 k
      cases k with
      | zero => simpa using h0
      | succ k =>
          rw [List.take_succ_cons, List.foldl_cons]
          unfold liveOkAux at h
          simp only [Bool.and_eq_true, decide_eq_true_eq] at h
          exact ih (liveStep live e) h.2 h.1 k

/-- The scan distributes over concatenation. -/
theorem liveOkAux_append (tr1 tr2 : List Event) :
    ∀ live, liveOkAux live (tr1 ++ tr2) =
      (liveOkAux live tr1 && liveOkAux (tr1.foldl liveStep live) tr2) := by
  induction tr1 with
  | nil => intro live; simp [liveOkAux]
  | cons e tr1 ih =>
      intro live
      simp [liveOkAux, ih (liveStep live e), Bool.and_assoc]

/-- One attempt publishes one descriptor and deletes it again: the scan
passes, and the attempt leaves no live descriptor behind. -/
theorem attemptTrace_liveOk (m : Medium) (tid d : Nat) :
    liveOkAux [] (attemptTrace m tid d) = true ∧
    (attemptTrace m tid d).foldl liveStep [] = [] := by
  unfold attemptTrace
  cases pollHit m tid d with
  | some a => constructor <;> simp [liveOkAux, liveStep]
  | none =>
      cases m.look d tid with
      | some a => constructor <;> simp [liveOkAux, liveStep]
      | none => constructor <;> simp [liveOkAux, liveStep]

/-- The scan passes on the full two-attempt trace shape of the Fallback
Dispatcher, with either no or one interleaved ledger-move event between
the attempts. -/
theorem liveOkAux_two_attempts (m : Medium) (tid1 d1 tid2 d2 : Nat)
    (ms : List Event)
    (hms : ms = [] ∨ ∃ fa ta, ms = [Event.ledgerMove fa ta])
    (f1 t1 f2 t2 f3 t3 : LState) :
    liveOkAux []
      ((Event.ledgerMove f1 t1 :: attemptTrace m tid1 d1 ++ ms ++
        Event.ledgerMove f2 t2 :: attemptTrace m tid2 d2) ++
          [Event.ledgerMove f3 t3]) = true := by
  unfold attemptTrace
  rcases hms with rfl | ⟨fa, ta, rfl⟩ <;>
  rcases pollHit m tid1 d1 with _ | a1 <;>
  rcases m.look d1 tid1 with _ | b1 <;>
  rcases pollHit m tid2 d2 with _ | a2 <;>
  rcases m.look d2 tid2 with _ | b2 <;>
  simp [liveOkAux, liveStep]

/-- The scan passes on the single-attempt trace shape. -/
theorem liveOkAux_one_attempt (m : Medium) (tid1 d1 : Nat)
    (f1 t1 f2 t2 : LState) :
    liveOkAux []
      (Event.ledgerMove f1 t1 :: attemptTrace m tid1 d1 ++
        [Event.ledgerMove f2 t2]) = true := by
  unfold attemptTrace
  rcases pollHit m tid1 d1 with _ | a1 <;>
  rcases m.look d1 tid1 with _ | b1 <;>
  simp [liveOkAux, liveStep]

/-- A timed-out attempt's medium trace is publish-then-delete. -/
theorem attemptTrace_of_timeout (m : Medium) (tid d : Nat)
    (h : classifyAttempt m tid d = .timeout) :
    attemptTrace m tid d = [.publish tid, .deleteDesc tid] := by
  unfold classifyAttempt observeAttempt at h
  unfold attemptTrace
  cases hp : pollHit m tid d with
  | some a =>
      rw [hp] at h
      dsimp only at h
      split at h <;> simp at h
  | none =>
      rw [hp] at h
      dsimp only at h
      cases hl : m.look d tid with
      | some a =>
          rw [hl] at h
          dsimp only at h
          split at h <;> simp at h
      | none => rfl

/-- A provider-error attempt observes its artifact either while polling or
at the re-check, with the delete around it. -/
theorem attemptTrace_of_providerError (m : Medium) (tid d : Nat)
    (a : ResultArtifact) (h : classifyAttempt m tid d = .providerError a) :
    attemptTrace m tid d = [.publish tid, .observed a, .deleteDesc tid] ∨
    attemptTrace m tid d = [.publish tid, .deleteDesc tid, .observed a] := by
  unfold classifyAttempt observeAttempt at h
  unfold attemptTrace
  cases hp : pollHit m tid d with
  | some a0 =>
      rw [hp] at h
      dsimp only at h
      split at h <;> simp at h
      subst h
      exact Or.inl rfl
  | none =>
      rw [hp] at h
      dsimp only at h
      cases hl : m.look d tid with
      | some a0 =>
          rw [hl] at h
          dsimp only at h
          split at h <;> simp at h
          subst h
          exact Or.inr rfl
      | none =>
          rw [hl] at h
          simp at h

/-- Generic decomposition of a two-attempt trace around the primary delete,
the move into `FALLBACK_DISPATCHED`, and the secondary publish. -/
theorem secondary_trace_decomp (tid1 tid2 : Nat)
    (pre1 post1 ms tl2 : List Event) (fromA : LState) (lastE : Event) :
    ∃ pre mid post fs,
      ((Event.ledgerMove .PENDING .DISPATCHED ::
          (pre1 ++ Event.deleteDesc tid1 :: post1) ++ ms ++
            Event.ledgerMove fromA .FALLBACK_DISPATCHED ::
              (Event.publish tid2 :: tl2)) ++ [lastE]) =
        pre ++ Event.deleteDesc tid1 :: mid ++
          Event.ledgerMove fs .FALLBACK_DISPATCHED ::
            Event.publish tid2 :: post :=
  ⟨Event.ledgerMove .PENDING .DISPATCHED :: pre1, post1 ++ ms,
    tl2 ++ [lastE], fromA, by simp⟩

/-- C6: scanning the protocol trace of one logical request, at most one
TaskDescriptor is live (published, not yet deleted) after every prefix;
and when the secondary is invoked, the trace decomposes so that the
primary's descriptor delete precedes the ledger's move into
`FALLBACK_DISPATCHED` (the entry has left `DISPATCHED`), which immediately
precedes the secondary's publish — attempts are strictly ordered. -/
theorem C6_single_live_descriptor (led : Ledger) (rid tid1 tid2 d1 d2 : Nat)
    (m : Medium) :
    (∀ k, (liveDescriptors
      (((fallbackDispatch led rid tid1 tid2 d1 d2 m).trace).take k)).length
        ≤ 1) ∧
    ((fallbackDispatch led rid tid1 tid2 d1 d2 m).secondaryInvoked = true →
      ∃ pre mid post fs,
        (fallbackDispatch led rid tid1 tid2 d1 d2 m).trace =
          pre ++ Event.deleteDesc tid1 :: mid ++
            Event.ledgerMove fs .FALLBACK_DISPATCHED ::
              Event.publish tid2 :: post) := by
  obtain ⟨tl2, htl2⟩ : ∃ tl, attemptTrace m tid2 d2 = .publish tid2 :: tl :=
    ⟨_, rfl⟩
  unfold fallbackDispatch
  rcases h1 : transition led rid .PENDING .DISPATCHED with ⟨res, led1⟩
  cases res with
  | conflict =>
      constructor
      · intro k
        simp [liveDescriptors]
      · intro h
        simp at h
  | ok =>
      cases hc1 : classifyAttempt m tid1 d1 with
      | ok a =>
          constructor
          · intro k
            exact liveOk_prefix _ []
              (liveOkAux_one_attempt m tid1 d1 .PENDING .DISPATCHED
                .DISPATCHED .COMPLETED) (by simp) k
          · intro h
            simp at h
      | providerError a =>
          unfold fallbackDispatch.secondaryAttempt
          rcases attemptTrace_of_providerError m tid1 d1 a hc1 with htr | htr <;>
          cases hc2 : classifyAttempt m tid2 d2 with
          | ok a2 =>
              refine ⟨fun k => liveOk_prefix _ []
                (liveOkAux_two_attempts m tid1 d1 tid2 d2 [] (Or.inl rfl)
                  .PENDING .DISPATCHED .DISPATCHED .FALLBACK_DISPATCHED
                  .FALLBACK_DISPATCHED .COMPLETED) (by simp) k,
                fun _ => ?_⟩
              · simp only [htr, htl2]
                first
                | exact secondary_trace_decomp tid1 tid2
                    [.publish tid1, .observed a] [] [] tl2 .DISPATCHED
                    (.ledgerMove .FALLBACK_DISPATCHED .COMPLETED)
                | exact secondary_trace_decomp tid1 tid2
                    [.publish tid1] [.observed a] [] tl2 .DISPATCHED
                    (.ledgerMove .FALLBACK_DISPATCHED .COMPLETED)
          | providerError a2 =>
              refine ⟨fun k => liveOk_prefix _ []
                (liveOkAux_two_attempts m tid1 d1 tid2 d2 [] (Or.inl rfl)
                  .PENDING .DISPATCHED .DISPATCHED .FALLBACK_DISPATCHED
                  .FALLBACK_DISPATCHED .FAILED) (by simp) k,
                fun _ => ?_⟩
              · simp only [htr, htl2]
                first
                | exact secondary_trace_decomp tid1 tid2
                    [.publish tid1, .observed a] [] [] tl2 .DISPATCHED
                    (.ledgerMove .FALLBACK_DISPATCHED .FAILED)
                | exact secondary_trace_decomp tid1 tid2
                    [.publish tid1] [.observed a] [] tl2 .DISPATCHED
                    (.ledgerMove .FALLBACK_DISPATCHED .FAILED)
          | timeout =>
              refine ⟨fun k => liveOk_prefix _ []
                (liveOkAux_two_attempts m tid1 d1 tid2 d2 [] (Or.inl rfl)
                  .PENDING .DISPATCHED .DISPATCHED .FALLBACK_DISPATCHED
                  .FALLBACK_DISPATCHED .FAILED) (by simp) k,
                fun _ => ?_⟩
              · simp only [htr, htl2]
                first
                | exact secondary_trace_decomp tid1 tid2
                    [.publish tid1, .observed a] [] [] tl2 .DISPATCHED
                    (.ledgerMove .FALLBACK_DISPATCHED .FAILED)
                | exact secondary_trace_decomp tid1 tid2
                    [.publish tid1] [.observed a] [] tl2 .DISPATCHED
                    (.ledgerMove .FALLBACK_DISPATCHED .FAILED)
      | timeout =>
          unfold fallbackDispatch.secondaryAttempt
          have htr := attemptTrace_of_timeout m tid1 d1 hc1
          cases hc2 : classifyAttempt m tid2 d2 with
          | ok a2 =>
              refine ⟨fun k => liveOk_prefix _ []
                (liveOkAux_two_attempts m tid1 d1 tid2 d2
                  [.ledgerMove .DISPATCHED .ABANDONED]
                  (Or.inr ⟨_, _, rfl⟩)
                  .PENDING .DISPATCHED .ABANDONED .FALLBACK_DISPATCHED
                  .FALLBACK_DISPATCHED .COMPLETED) (by simp) k,
                fun _ => ?_⟩
              · simp only [htr, htl2]
                exact secondary_trace_decomp tid1 tid2
                    [.publish tid1] [] [.ledgerMove .DISPATCHED .ABANDONED]
                    tl2 .ABANDONED
                    (.ledgerMove .FALLBACK_DISPATCHED .COMPLETED)
          | providerError a2 =>
              refine ⟨fun k => liveOk_prefix _ []
                (liveOkAux_two_attempts m tid1 d1 tid2 d2
                  [.ledgerMove .DISPATCHED .ABANDONED]
                  (Or.inr ⟨_, _, rfl⟩)
                  .PENDING .DISPATCHED .ABANDONED .FALLBACK_DISPATCHED
                  .FALLBACK_DISPATCHED .FAILED) (by simp) k,
                fun _ => ?_⟩
              · simp only [htr, htl2]
                exact secondary_trace_decomp tid1 tid2
                    [.publish tid1] [] [.ledgerMove .DISPATCHED .ABANDONED]
                    tl2 .ABANDONED
                    (.ledgerMove .FALLBACK_DISPATCHED .FAILED)
          | timeout =>
              refine ⟨fun k => liveOk_prefix _ []
                (liveOkAux_two_attempts m tid1 d1 tid2 d2
                  [.ledgerMove .DISPATCHED .ABANDONED]
                  (Or.inr ⟨_, _, rfl⟩)
                  .PENDING .DISPATCHED .ABANDONED .FALLBACK_DISPATCHED
                  .FALLBACK_DISPATCHED .FAILED) (by simp) k,
                fun _ => ?_⟩
              · simp only [htr, htl2]
                exact secondary_trace_decomp tid1 tid2
                    [.publish tid1] [] [.ledgerMove .DISPATCHED .ABANDONED]
                    tl2 .ABANDONED
                    (.ledgerMove .FALLBACK_DISPATCHED .FAILED)

/-- Witness for C6: under `wMedFb` the secondary is invoked and the trace
decomposes with the primary delete before the secondary publish. -/
theorem C6_single_live_descriptor_witness :
    ∃ pre mid post fs,
      (fallbackDispatch wLed 7 100 101 10 20 wMedFb).trace =
        pre ++ Event.deleteDesc 100 :: mid ++
          Event.ledgerMove fs .FALLBACK_DISPATCHED ::
            Event.publish 101 :: post :=
  (C6_single_live_descriptor wLed 7 100 101 10 20 wMedFb).2 (by decide)

/-- The broker invariant holds initially. -/
theorem lockInv_init : LockInv lockInit := by
  unfold LockInv lockInit
  refine ⟨?_, ?_, ?_, ?_⟩ <;> simp

/-- The broker invariant is preserved by every action. -/
theorem lockInv_step (s : LockState) (hs : LockInv s) :
    ∀ act, LockInv (lockStep s act) := by
  obtain ⟨h1, h2, h3, h4⟩ := hs
  intro act
  cases act with
  | tick d =>
      refine ⟨fun r hr => ?_, h2, h3, h4⟩
      show endT r ≤ s.now + d
      exact le_trans (h1 r hr) (Nat.le_add_right _ _)
  | enqueue h =>
      exact ⟨h1, h2, h3, h4⟩
  | grant ttl =>
      simp only [lockStep]
      cases hq : s.queue with
      | nil => exact ⟨h1, h2, h3, h4⟩
      | cons hd rest =>
          dsimp only
          by_cases hf : lockFree s = true
          · rw [if_pos hf]
            cases hc : s.current with
            | none =>
                refine ⟨h1, ?_, ?_, h4⟩
                · intro c hcc
                  simp only [Option.some.injEq] at hcc
                  subst hcc
                  rfl
                · intro c hcc
                  simp only [Option.some.injEq] at hcc
                  subst hcc
                  exact fun r hr => h1 r hr
            | some r0 =>
                have hrel : r0.releasedAt = none := h2 r0 hc
                have hexp : r0.token.lease_expires_at ≤ s.now := by
                  unfold lockFree at hf
                  rw [hc] at hf
                  simpa using hf
                have hend : endT r0 ≤ s.now := by
                  unfold endT
                  rw [hrel]
                  exact hexp
                have hall : ∀ r ∈ r0 :: s.past, endT r ≤ s.now := by
                  intro r hr
                  rcases List.mem_cons.mp hr with rfl | hr
                  · exact hend
                  · exact h1 r hr
                refine ⟨hall, ?_, ?_, ?_⟩
                · intro c hcc
                  simp only [Option.some.injEq] at hcc
                  subst hcc
                  rfl
                · intro c hcc
                  simp only [Option.some.injEq] at hcc
                  subst hcc
                  exact hall
                · exact List.Pairwise.cons (fun b hb => h3 r0 hc b hb) h4
          · rw [if_neg hf]
            exact ⟨h1, h2, h3, h4⟩
  | renew tok ttl =>
      simp only [lockStep]
      cases hc : s.current with
      | none => exact ⟨h1, h2, h3, h4⟩
      | some r =>
          dsimp only
          by_cases hg : r.token = tok ∧ s.now < tok.lease_expires_at
          · rw [if_pos hg]
            refine ⟨h1, ?_, ?_, h4⟩
            · intro c hcc
              simp only [Option.some.injEq] at hcc
              subst hcc
              rfl
            · intro c hcc
              simp only [Option.some.injEq] at hcc
              subst hcc
              intro r2 hr2
              have := h3 r hc r2 hr2
              simpa [← hg.1] using this
          · rw [if_neg hg]
            exact ⟨h1, h2, h3, h4⟩
  | release tok =>
      simp only [lockStep]
      cases hc : s.current with
      | none => exact ⟨h1, h2, h3, h4⟩
      | some r =>
          dsimp only
          by_cases hg : r.token = tok ∧ s.now < tok.lease_expires_at
          · rw [if_pos hg]
            refine ⟨?_, ?_, ?_, ?_⟩
            · intro r2 hr2
              rcases List.mem_cons.mp hr2 with rfl | hr2
              · show endT { r with releasedAt := some s.now } ≤ s.now
                unfold endT
                exact min_le_left _ _
              · exact h1 r2 hr2
            · intro c hcc
              simp at hcc
            · intro c hcc
              simp at hcc
            · exact List.Pairwise.cons (fun b hb => h3 r hc b hb) h4
          · rw [if_neg hg]
            exact ⟨h1, h2, h3, h4⟩

/-- The broker invariant holds in every reachable state. -/
theorem lockInv_run (acts : List LockAction) : LockInv (lockRun acts) := by
  have hgen : ∀ (l : List LockAction) (s : LockState), LockInv s →
      LockInv (List.foldl lockStep s l) := by
    intro l
    induction l with
    | nil => intro s hs; exact hs
    | cons a l ih =>
        intro s hs
        exact ih (lockStep s a) (lockInv_step s hs a)
  exact hgen acts lockInit lockInv_init

/-- A token valid at `t` was acquired by `t` and ends after `t`. -/
theorem validAt_bounds {t : Nat} {r : GrantRecord} (h : validAt t r = true) :
    r.token.acquired_at ≤ t ∧ t < endT r := by
  unfold validAt at h
  unfold endT
  cases hrel : r.releasedAt with
  | none =>
      rw [hrel] at h
      simp only [Bool.and_eq_true, decide_eq_true_eq] at h
      exact ⟨h.1.1, h.1.2⟩
  | some rt =>
      rw [hrel] at h
      simp only [Bool.and_eq_true, decide_eq_true_eq] at h
      exact ⟨h.1.1, lt_min h.2 h.1.2⟩

/-- In an invariant state the grant lifetimes are pairwise ordered. -/
theorem pairwise_grants (s : LockState) (hinv : LockInv s) :
    (allGrants s).Pairwise fun a b => endT b ≤ a.token.acquired_at := by
  obtain ⟨h1, h2, h3, h4⟩ := hinv
  unfold allGrants
  cases hc : s.current with
  | none => simpa using h4
  | some r =>
      simp only [List.singleton_append, List.pairwise_cons]
      exact ⟨fun b hb => h3 r hc b hb, h4⟩

/-- A list whose elements can pairwise not both satisfy `p` has at most one
element satisfying `p`. -/
theorem countP_le_one_of_pairwise (l : List GrantRecord)
    (p : GrantRecord → Bool)
    (h : l.Pairwise fun a b => ¬(p a = true ∧ p b = true)) :
    l.countP p ≤ 1 := by
  induction l with
  | nil => simp
  | cons a l ih =>
      rw [List.pairwise_cons] at h
      by_cases hp : p a = true
      · rw [List.countP_cons_of_pos p l hp]
        have hz : l.countP p = 0 :=
          List.countP_eq_zero.mpr fun b hb hpb => h.1 b hb ⟨hp, hpb⟩
        omega
      · rw [List.countP_cons_of_neg p l hp]
        exact ih h.2

/-- C1: in every reachable state of the Hardware Lock broker — any
interleaving of concurrent acquires, grants, renews, releases, crashes
(holders that simply stop acting) and clock ticks — at most one granted
token is held-and-unexpired at any instant `t`: two holders never both
hold the accelerator. -/
theorem C1_lock_mutual_exclusion (acts : List LockAction) (t : Nat) :
    ((allGrants (lockRun acts)).countP (validAt t)) ≤ 1 := by
  have hp := pairwise_grants _ (lockInv_run acts)
  refine countP_le_one_of_pairwise _ _ (hp.imp ?_)
  intro a b hab hv
  have ha := validAt_bounds hv.1
  have hb := validAt_bounds hv.2
  omega

/-- C8: a granted lease expires exactly `lease_ttl` after acquisition and
the next queued holder acquires as soon as the lease has expired (the
token counts as abandoned once `lease_expires_at` passes); and releasing
an already-expired token is a no-op that leaves the whole broker state —
including any new holder's token — untouched. -/
theorem C8_lease_bounded_recovery :
    (∀ (s : LockState) (h : Nat) (rest : List Nat) (ttl : Nat),
      s.queue = h :: rest → lockFree s = true →
      (lockStep s (.grant ttl)).current =
        some ⟨⟨theResource, h, s.now, s.now + ttl⟩, none⟩ ∧
      (lockStep s (.grant ttl)).queue = rest) ∧
    (∀ (s : LockState) (c : GrantRecord), s.current = some c →
      c.token.lease_expires_at ≤ s.now → lockFree s = true) ∧
    (∀ (s : LockState) (tok : LockToken), tok.lease_expires_at ≤ s.now →
      lockStep s (.release tok) = s) := by
  refine ⟨fun s h rest ttl hq hf => ?_, fun s c hc hle => ?_,
    fun s tok hle => ?_⟩
  · simp only [lockStep]
    rw [hq]
    dsimp only
    rw [if_pos hf]
    exact ⟨rfl, rfl⟩
  · unfold lockFree
    rw [hc]
    simpa using hle
  · simp only [lockStep]
    cases hc : s.current with
    | none => rfl
    | some r =>
        dsimp only
        rw [if_neg]
        rintro ⟨-, hlt⟩
        omega

/-- Witness for C8 at the crashed-holder state `wLock` (holder 1 acquired at
0 with lease 5, clock at 7, holder 2 queued): the lock is free, a grant
hands holder 2 a token leased for exactly 5 more units, and releasing the
crashed holder's expired token changes nothing. -/
theorem C8_lease_bounded_recovery_witness :
    lockFree wLock = true ∧
    (lockStep wLock (.grant 5)).current =
      some ⟨⟨theResource, 2, 7, 12⟩, none⟩ ∧
    lockStep wLock (.release wTok) = wLock := by
  have h := C8_lease_bounded_recovery
  refine ⟨h.2.1 wLock ⟨wTok, none⟩ rfl (by decide), ?_, ?_⟩
  · exact (h.1 wLock 2 [] 5 rfl (h.2.1 wLock ⟨wTok, none⟩ rfl (by decide))).1
  · exact h.2.2 wLock wTok (by decide)

end Sonora
